import Mathlib

/-!
Shallow embedding of the functional core of `ichosnomicon.py` (a single-file
music library manager): the scan-reconciliation engine, the query filter,
the playback-session bookkeeping, bulk tag editing and playlist reloading.

Machine conventions:
* Python / SQLite strings are Lean `String`s; `str.lower()` and SQL `LOWER`
  are both modelled by ASCII lowercasing (`Char.toLower`), which agrees with
  both on ASCII data.
* Python floats (seek positions, volumes, durations) are modelled as exact
  rationals; the claims under study are about the bookkeeping arithmetic,
  not rounding.
* The SQLite `songs` table is a `List Song` in insertion order; statements
  executed through the program's single connection act on it directly (the
  program reads its own uncommitted writes through that connection).
* The audio engine (pygame) is represented by the list of commands issued
  to it; its elapsed-time readout is an input to the poll-tick function.
-/

/-- ASCII lowercasing, modelling both Python `str.lower()` and SQLite
`LOWER(...)` on the ASCII data that the program stores. -/
def sqlLower (s : String) : String := ⟨s.data.map Char.toLower⟩

/-- Python `s.split(sep)` for a one-character separator: splits at every
occurrence, `"" ↦ [""]`. -/
def splitChar (sep : Char) : List Char → List (List Char)
  | [] => [[]]
  | c :: cs =>
    if c = sep then [] :: splitChar sep cs
    else
      match splitChar sep cs with
      | [] => [[c]]
      | h :: t => (c :: h) :: t

/-- Python `s.strip()`: drop whitespace from both ends. -/
def trimChars (l : List Char) : List Char :=
  ((l.dropWhile Char.isWhitespace).reverse.dropWhile Char.isWhitespace).reverse

/-- Python `s.strip()` on a `String`. -/
def trimStr (s : String) : String := ⟨trimChars s.data⟩

/-- Python `s.startswith(c)` for a single character. -/
def startsWithChar (c : Char) (s : String) : Bool :=
  match s.data with
  | [] => false
  | a :: _ => decide (a = c)

/-- SQLite `LIKE` pattern matching: `%` matches any sequence of characters,
`_` matches exactly one character, anything else matches itself.  Both sides
are already lowercased by the callers, matching the queries in
`update_library_list`. -/
def likeMatch : List Char → List Char → Bool
  | [], s => s.isEmpty
  | a :: ps, s =>
    if a = '%' then (s.tails).any (fun suf => likeMatch ps suf)
    else
      match s with
      | [] => false
      | c :: cs => (if a = '_' then true else decide (a = c)) && likeMatch ps cs

/-- A row of the `songs` table:
`songs(id PK autoincrement, relative_path unique not null, filename, tags,
artist, album)`. -/
structure Song where
  id : Nat
  relative_path : String
  filename : String
  tags : String
  artist : String
  album : String
deriving DecidableEq

/-- One audio file enumerated by the recursive directory walk, together with
the best-effort metadata the extractor returned for it (the extractor is an
external collaborator; failures already yield empty strings). -/
structure FileEntry where
  relative_path : String
  filename : String
  artist : String
  album : String
deriving DecidableEq

/-- The pre-scan lookup map built by
`SELECT relative_path, tags FROM songs` (`relative_path` is unique, so the
Python dict is a plain association list). -/
def existingOf (store : List Song) : List (String × String) :=
  store.map (fun s => (s.relative_path, s.tags))

/-- `existing_songs.get(relative_path)`: first (only) binding of the key. -/
def lookupTags (existing : List (String × String)) (rp : String) : Option String :=
  (existing.find? (fun p => decide (p.1 = rp))).map Prod.snd

/-- Running state of the per-file scan loop in `scan_directory`. -/
structure ScanState where
  rows : List Song
  nextId : Nat
  count : Nat
  preserved : Nat
deriving DecidableEq

/-- One iteration of the scan loop: re-attach tags from the pre-scan map
(`existing_songs.get(relative_path, "")`), count a preserved tag when the
path pre-existed with truthy (non-empty) tags, `INSERT OR IGNORE` on the
unique `relative_path`, and count the file unconditionally. -/
def scanStep (existing : List (String × String)) (st : ScanState) (f : FileEntry) :
    ScanState :=
  let tagsV := (lookupTags existing f.relative_path).getD ""
  let preservedInc : Nat :=
    if (lookupTags existing f.relative_path).isSome = true ∧ tagsV ≠ "" then 1 else 0
  let conflict := st.rows.any (fun r => decide (r.relative_path = f.relative_path))
  { rows :=
      if conflict then st.rows
      else st.rows ++ [{ id := st.nextId, relative_path := f.relative_path,
                         filename := f.filename, tags := tagsV,
                         artist := f.artist, album := f.album }],
    nextId := if conflict then st.nextId else st.nextId + 1,
    count := st.count + 1,
    preserved := st.preserved + preservedInc }

/-- Result of a scan: the table contents afterwards, the reported scanned
count, the reported preserved-tags count, and whether the early
`"No audio files found"` return was taken. -/
structure ScanOutcome where
  store : List Song
  scannedCount : Nat
  preservedTags : Nat
  emptyResult : Bool
deriving DecidableEq

/-- `scan_directory`: snapshot `(relative_path → tags)`, `DELETE FROM songs`,
enumerate the audio files, and only then check for the empty enumeration
(the delete has already happened on the connection when the early return
fires).  Otherwise insert every file through `scanStep`.  `nextId` is the
table's next autoincrement value. -/
def scan_directory (store : List Song) (files : List FileEntry) (nextId : Nat) :
    ScanOutcome :=
  let existing := existingOf store
  if files.length = 0 then
    { store := [], scannedCount := 0, preservedTags := 0, emptyResult := true }
  else
    let fin := files.foldl (scanStep existing)
      { rows := [], nextId := nextId, count := 0, preserved := 0 }
    { store := fin.rows, scannedCount := fin.count, preservedTags := fin.preserved,
      emptyResult := false }

/-- The five search filters of the library view, as entered (the function
lowercases them the way `update_library_list` does). -/
structure Filters where
  search : String
  tag : String
  artist : String
  album : String
  path : String
deriving DecidableEq

/-- A `LOWER(column) LIKE '%filt%'` condition that is only added when the
filter is non-empty. -/
def condLike (filt text : String) : Bool :=
  decide (filt = "") || likeMatch ('%' :: (filt.data ++ ['%'])) text.data

/-- The `WHERE` clause built by `update_library_list`: when the lowercased
path filter is non-empty it is the only condition,
`LOWER(relative_path) LIKE 'path%'`; otherwise the four substring filters
apply conjunctively. -/
def songMatches (f : Filters) (s : Song) : Bool :=
  let pathT := sqlLower f.path
  if pathT = "" then
    condLike (sqlLower f.search) (sqlLower s.filename) &&
    condLike (sqlLower f.tag) (sqlLower s.tags) &&
    condLike (sqlLower f.artist) (sqlLower s.artist) &&
    condLike (sqlLower f.album) (sqlLower s.album)
  else
    likeMatch (pathT.data ++ ['%']) (sqlLower s.relative_path).data

/-- `update_library_list`: the rows of the store satisfying the filter
query, in store order. -/
def update_library_list (store : List Song) (f : Filters) : List Song :=
  store.filter (songMatches f)

/-- The ephemeral playback-session fields of the application object. -/
structure Session where
  currently_playing : Option Nat
  is_playing : Bool
  current_volume : ℚ
  song_length : ℚ
  song_start_time : ℚ
  is_seeking : Bool
deriving DecidableEq

/-- The field values set in `__init__` (volume starts at `0.7`). -/
def defaultSession : Session :=
  { currently_playing := none, is_playing := false, current_volume := 7/10,
    song_length := 0, song_start_time := 0, is_seeking := false }

/-- Commands issued to the pygame mixer. -/
inductive EngineCmd where
  | load (path : String)
  | setVolume (v : ℚ)
  | playFrom (pos : ℚ)
deriving DecidableEq

/-- `stop_playback`: reset the session fields set by playback; the volume
field is not touched. -/
def stop_playback (s : Session) : Session :=
  { s with is_playing := false, currently_playing := none, song_length := 0,
           song_start_time := 0, is_seeking := false }

/-- `on_seek(value)`: bail out when pygame is unavailable, the length is
unknown (`song_length <= 0`) or nothing is playing; otherwise enter the
seeking guard, look the current track up in the store, reload the file, play
it from `value/100 * song_length`, record that offset in `song_start_time`
and resume the playing state.  Returns the new session and the engine
commands issued. -/
def on_seek (pygame : Bool) (store : List Song) (musicRoot : String) (s : Session)
    (value : ℚ) : Session × List EngineCmd :=
  if ¬ pygame = true ∨ s.song_length ≤ 0 then (s, [])
  else
    match s.currently_playing with
    | none => (s, [])
    | some songId =>
      let s1 := { s with is_seeking := true }
      let position := value / 100 * s.song_length
      match store.find? (fun r => decide (r.id = songId)) with
      | none => ({ s1 with is_seeking := false }, [])
      | some row =>
        let s2 := { s1 with song_start_time := position }
        let s3 := if s2.is_playing then s2 else { s2 with is_playing := true }
        (s3, [EngineCmd.load (musicRoot ++ "/" ++ row.relative_path),
              EngineCmd.setVolume s.current_volume,
              EngineCmd.playFrom position])

/-- The delayed `is_seeking = False` callback scheduled 200 ms after a
seek. -/
def seekGuardExpire (s : Session) : Session := { s with is_seeking := false }

/-- One tick of `update_seek_bar`, fed the engine's `get_pos()` readout in
milliseconds.  Yields the absolute position written to the display, or
`none` when the tick does not read/update the display (not playing, pygame
missing, seek guard active, negative readout, or unknown length). -/
def update_seek_bar (pygame : Bool) (s : Session) (pos_ms : ℚ) : Option ℚ :=
  if ¬ s.is_playing = true ∨ ¬ pygame = true then none
  else if s.is_seeking = true then none
  else if 0 ≤ pos_ms then
    let raw := pos_ms / 1000 + s.song_start_time
    let clamped := if raw > s.song_length then s.song_length else raw
    if 0 < s.song_length then some clamped else none
  else none

/-- `[tag.strip() for tag in s.split(',') if tag.strip()]` — the tag-list
parse used by the bulk tag editor (an empty string parses to `[]`). -/
def parseTags (s : String) : List String :=
  ((((splitChar ',' s.data).map trimChars).filter (fun t => decide (t ≠ []))).map
    (fun l => (⟨l⟩ : String)))

/-- The `"remove"` branch of `apply_bulk_tags` on one tags string: drop the
listed tags from the parsed list and re-join with `", "`. -/
def bulkRemoveTags (remTags : List String) (tags : String) : String :=
  String.intercalate ", " ((parseTags tags).filter (fun t => decide (t ∉ remTags)))

/-- `apply_bulk_tags` with operation `"remove"`: every selected row's tags
column is rewritten to the re-joined filtered list; unselected rows are not
touched. -/
def apply_bulk_tags_remove (store : List Song) (selected : List Nat) (input : String) :
    List Song :=
  let remTags := parseTags input
  store.map (fun s =>
    if s.id ∈ selected then { s with tags := bulkRemoveTags remTags s.tags } else s)

/-- A `pathlib` POSIX path: an absolute flag and the non-anchor parts. -/
structure PyPath where
  absolute : Bool
  parts : List String
deriving DecidableEq

/-- `Path(s)` for a POSIX path string: absolute iff it starts with `/`;
empty components (repeated slashes) are collapsed. -/
def parsePath (s : String) : PyPath :=
  { absolute := startsWithChar '/' s,
    parts := ((splitChar '/' s.data).filter (fun p => decide (p ≠ []))).map
      (fun l => (⟨l⟩ : String)) }

/-- `str(...)` of a relative path made of the given parts. -/
def joinPath (parts : List String) : String := String.intercalate "/" parts

/-- `p.relative_to(root)`: defined exactly when `root` is a path prefix of
`p` (same anchor), returning the remaining parts; otherwise `ValueError`,
modelled as `none`. -/
def relative_to (p root : PyPath) : Option (List String) :=
  if p.absolute = root.absolute ∧ root.parts.isPrefixOf p.parts = true then
    some (p.parts.drop root.parts.length)
  else none

/-- `line.split('=', 1)`: split at the first occurrence of a character,
`none` when it does not occur. -/
def splitFirst (sep : Char) : List Char → Option (List Char × List Char)
  | [] => none
  | c :: cs =>
    if c = sep then some ([], cs)
    else (splitFirst sep cs).map (fun pr => (c :: pr.1, pr.2))

/-- The shared handling of one playlist path entry during reload: an
absolute entry is mapped through `relative_to(music_root)` and silently
dropped when that raises; a relative entry is kept verbatim. -/
def processEntry (root : PyPath) (raw : String) : Option String :=
  let p := parsePath raw
  if p.absolute = true then
    match relative_to p root with
    | some rest => some (joinPath rest)
    | none => none
  else some raw

/-- One line of an `.m3u` file during reload: strip, skip blank lines and
`#` comments, then process the path entry. -/
def m3uLine (root : PyPath) (line : String) : Option String :=
  let l := trimStr line
  if l = "" then none
  else if startsWithChar '#' l = true then none
  else processEntry root l

/-- `.m3u` branch of `load_playlist_to_library`: the root-relative entries
added to the selection set, in file order. -/
def load_m3u (root : PyPath) (lines : List String) : List String :=
  lines.filterMap (m3uLine root)

/-- One line of a `.pls` file during reload: only `File...=path` lines
contribute; a `File` line without `=` raises (outer `none`), other lines are
skipped (inner `none`). -/
def plsLine (root : PyPath) (line : String) : Option (Option String) :=
  let l := trimStr line
  if List.isPrefixOf "File".data l.data = true then
    match splitFirst '=' l.data with
    | some pr => some (processEntry root ⟨pr.2⟩)
    | none => none
  else some none

/-- `.pls` branch of `load_playlist_to_library`; `none` models the
`IndexError` path that aborts the whole load. -/
def load_pls (root : PyPath) : List String → Option (List String)
  | [] => some []
  | l :: ls =>
    match plsLine root l, load_pls root ls with
    | some c, some rest => some (c.toList ++ rest)
    | _, _ => none

/-! ### Lemmas about the scan loop -/

theorem foldl_scanStep_count (existing : List (String × String)) (files : List FileEntry) :
    ∀ st : ScanState, (files.foldl (scanStep existing) st).count = st.count + files.length := by
  induction files with
  | nil => intro st; simp
  | cons f fs ih =>
    intro st
    rw [List.foldl_cons, ih]
    simp [scanStep]
    omega

theorem foldl_scanStep_preserved (existing : List (String × String)) (files : List FileEntry) :
    ∀ st : ScanState, (files.foldl (scanStep existing) st).preserved =
      st.preserved + (files.filter (fun f =>
        decide ((lookupTags existing f.relative_path).getD "" ≠ ""))).length := by
  induction files with
  | nil => intro st; simp
  | cons f fs ih =>
    intro st
    rw [List.foldl_cons, ih]
    cases ho : lookupTags existing f.relative_path with
    | none => simp [scanStep, ho, List.filter_cons]
    | some t =>
      by_cases ht : t = ""
      · subst ht; simp [scanStep, ho, List.filter_cons]
      · simp [scanStep, ho, List.filter_cons, ht]
        omega

theorem foldl_scanStep_rows (existing : List (String × String)) (files : List FileEntry) :
    ∀ st : ScanState,
      (∀ r ∈ st.rows, r.tags = (lookupTags existing r.relative_path).getD "") →
      ∀ r ∈ (files.foldl (scanStep existing) st).rows,
        r.tags = (lookupTags existing r.relative_path).getD "" := by
  induction files with
  | nil => intro st h; simpa using h
  | cons f fs ih =>
    intro st h
    rw [List.foldl_cons]
    apply ih
    intro r hr
    by_cases hc :
        st.rows.any (fun q => decide (q.relative_path = f.relative_path)) = true
    · simp only [scanStep, hc, if_true] at hr
      exact h r hr
    · simp only [scanStep, hc, if_false, Bool.false_eq_true] at hr
      rcases List.mem_append.mp hr with hmem | hmem
      · exact h r hmem
      · rcases List.mem_singleton.mp hmem with rfl
        rfl

theorem lookupTags_of_mem (store : List Song)
    (hnd : (store.map Song.relative_path).Nodup) {s : Song} (hs : s ∈ store) :
    lookupTags (existingOf store) s.relative_path = some s.tags := by
  induction store with
  | nil => cases hs
  | cons a rest ih =>
    rw [List.map_cons, List.nodup_cons] at hnd
    by_cases hrp : a.relative_path = s.relative_path
    · have hsa : s = a := by
        rcases List.mem_cons.mp hs with h | h
        · exact h
        · exact absurd (hrp ▸ List.mem_map_of_mem Song.relative_path h) hnd.1
      subst hsa
      simp [lookupTags, existingOf, List.find?_cons_of_pos, hrp]
    · have hs' : s ∈ rest := by
        rcases List.mem_cons.mp hs with h | h
        · exact absurd (h ▸ rfl) hrp
        · exact h
      have := ih hnd.2 hs'
      simpa [lookupTags, existingOf, List.find?_cons_of_neg, hrp] using this

theorem lookupTags_none (store : List Song) (rp : String)
    (h : ∀ s ∈ store, s.relative_path ≠ rp) :
    lookupTags (existingOf store) rp = none := by
  simp only [lookupTags, Option.map_eq_none', List.find?_eq_none, existingOf]
  intro x hx
  rcases List.mem_map.mp hx with ⟨s, hs, rfl⟩
  simpa using h s hs

/-! ### Claims about scanning -/

/-- Claim C1: when a root is rescanned, every inserted row whose
`relative_path` equals a pre-scan `relative_path` receives exactly the
pre-scan tags for that path, and a row whose path did not exist before
receives empty tags, whatever surrogate ids are assigned. -/
theorem scan_rescan_preserves_tags_by_path (store : List Song) (files : List FileEntry)
    (nextId : Nat) (hnd : (store.map Song.relative_path).Nodup)
    (hsame : ∀ rp : String,
      rp ∈ files.map FileEntry.relative_path ↔ rp ∈ store.map Song.relative_path) :
    ∀ r ∈ (scan_directory store files nextId).store,
      (∀ s ∈ store, s.relative_path = r.relative_path → r.tags = s.tags) ∧
      ((∀ s ∈ store, s.relative_path ≠ r.relative_path) → r.tags = "") := by
  intro r hr
  have htags : r.tags = (lookupTags (existingOf store) r.relative_path).getD "" := by
    by_cases hf : files.length = 0
    · simp [scan_directory, hf] at hr
    · simp only [scan_directory, if_neg hf] at hr
      exact foldl_scanStep_rows _ files _ (by simp) r hr
  constructor
  · intro s hs hrp
    have hlk := lookupTags_of_mem store hnd hs
    rw [hrp] at hlk
    rw [htags, hlk, Option.getD_some]
  · intro hall
    rw [htags, lookupTags_none store r.relative_path hall, Option.getD_none]

/-- Witness for C1 at a concrete one-row store rescanned over the same
single file. -/
theorem scan_rescan_preserves_tags_witness :
    (Song.mk 2 "a.mp3" "a.mp3" "rock" "" "").tags =
      (Song.mk 1 "a.mp3" "a.mp3" "rock" "" "").tags :=
  ((scan_rescan_preserves_tags_by_path [⟨1, "a.mp3", "a.mp3", "rock", "", ""⟩]
      [⟨"a.mp3", "a.mp3", "", ""⟩] 2 (by decide) (fun rp => Iff.rfl))
    ⟨2, "a.mp3", "a.mp3", "rock", "", ""⟩ (by decide)).1
    ⟨1, "a.mp3", "a.mp3", "rock", "", ""⟩ (by decide) rfl

/-- Claim C5: contrary to the no-op reading, `scan_directory` has already
executed `DELETE FROM songs` when the zero-files early return fires, so the
store visible on the connection is empty afterwards even though the explicit
empty result is reported. -/
theorem scan_zero_files_clears_store :
    (scan_directory [⟨1, "a.mp3", "a.mp3", "rock", "", ""⟩] [] 2).store = [] ∧
    (scan_directory [⟨1, "a.mp3", "a.mp3", "rock", "", ""⟩] [] 2).emptyResult = true ∧
    [(⟨1, "a.mp3", "a.mp3", "rock", "", ""⟩ : Song)] ≠ [] := by decide

/-- Claim C9: `preserved_tags` counts exactly the enumerated files whose
relative path pre-existed with a non-empty tags value; a pre-existing path
with empty stored tags is re-inserted with empty tags and not counted. -/
theorem scan_preserved_count_characterization :
    (∀ (store : List Song) (files : List FileEntry) (nextId : Nat),
      (scan_directory store files nextId).preservedTags =
        (files.filter (fun f =>
          decide ((lookupTags (existingOf store) f.relative_path).getD "" ≠ ""))).length) ∧
    ((scan_directory [⟨1, "a.mp3", "a.mp3", "", "", ""⟩]
        [⟨"a.mp3", "a.mp3", "", ""⟩] 2).store = [⟨2, "a.mp3", "a.mp3", "", "", ""⟩] ∧
     (scan_directory [⟨1, "a.mp3", "a.mp3", "", "", ""⟩]
        [⟨"a.mp3", "a.mp3", "", ""⟩] 2).preservedTags = 0) := by
  refine ⟨?_, by decide, by decide⟩
  intro store files nextId
  by_cases hf : files.length = 0
  · rcases List.length_eq_zero.mp hf with rfl
    simp [scan_directory]
  · simp only [scan_directory, if_neg hf]
    rw [foldl_scanStep_preserved]
    simp

/-- Claim C10: the reported scanned count is incremented once per enumerated
file regardless of insert conflicts, so two files with the same
relative path yield a count strictly above the resulting row count. -/
theorem scan_count_counts_all_enumerated :
    (∀ (store : List Song) (files : List FileEntry) (nextId : Nat),
      (scan_directory store files nextId).scannedCount = files.length) ∧
    ((scan_directory [] [⟨"x.mp3", "x.mp3", "", ""⟩, ⟨"x.mp3", "x.mp3", "", ""⟩]
        1).scannedCount = 2 ∧
     (scan_directory [] [⟨"x.mp3", "x.mp3", "", ""⟩, ⟨"x.mp3", "x.mp3", "", ""⟩]
        1).store.length = 1) := by
  refine ⟨?_, by decide, by decide⟩
  intro store files nextId
  by_cases hf : files.length = 0
  · rcases List.length_eq_zero.mp hf with rfl
    simp [scan_directory]
  · simp only [scan_directory, if_neg hf]
    rw [foldl_scanStep_count]
    simp

/-! ### Claims about the playback session -/

/-- Concrete session for the C4 counterexample: user volume at 1/2. -/
def loudSession : Session :=
  { defaultSession with
      current_volume := 1/2,
      is_playing := true,
      currently_playing := some 3 }

/-- Claim C4 counterexample: `stop_playback` does not restore the volume
field to its default `0.7`, so the post-stop session differs from the
default state. -/
theorem stop_keeps_volume_cex :
    (stop_playback loudSession).current_volume = 1/2 ∧
    defaultSession.current_volume = 7/10 ∧
    stop_playback loudSession ≠ defaultSession := by
  refine ⟨rfl, rfl, ?_⟩
  intro h
  have hv := congrArg Session.current_volume h
  simp only [stop_playback, loudSession, defaultSession] at hv
  norm_num at hv

/-- Claim C4 (amended): `stop_playback` resets every session field except
the volume to its default, leaves the volume unchanged, and is
idempotent. -/
theorem stop_resets_fields_except_volume (s : Session) :
    stop_playback s = { defaultSession with current_volume := s.current_volume } ∧
    stop_playback (stop_playback s) = stop_playback s :=
  ⟨rfl, rfl⟩

/-- Claim C7: when `song_length ≤ 0` or nothing is currently playing,
`on_seek` issues no engine command and returns the session unchanged. -/
theorem seek_requires_length_and_track (pygame : Bool) (store : List Song)
    (musicRoot : String) (s : Session) (value : ℚ)
    (h : s.song_length ≤ 0 ∨ s.currently_playing = none) :
    on_seek pygame store musicRoot s value = (s, []) := by
  rcases h with hL | hcp
  · unfold on_seek
    rw [if_pos (Or.inr hL)]
  · by_cases hc : (¬ pygame = true ∨ s.song_length ≤ 0)
    · unfold on_seek
      rw [if_pos hc]
    · unfold on_seek
      rw [if_neg hc, hcp]

/-- Witness for C7 at the default (idle, zero-length) session. -/
theorem seek_requires_length_and_track_witness :
    on_seek true [] "" defaultSession 50 = (defaultSession, []) :=
  seek_requires_length_and_track true [] "" defaultSession 50 (Or.inr rfl)

/-! ### Claims about bulk tag editing -/

/-- Claim C6 counterexample: a selected track whose tag list does not
contain "rock" still has its tags string rewritten, because the remove
operation re-joins the parsed list with a comma and a space. -/
theorem bulk_remove_rewrites_untouched_cex :
    "rock" ∉ parseTags "jazz,live" ∧
    apply_bulk_tags_remove [⟨2, "b.mp3", "b.mp3", "jazz,live", "", ""⟩] [2] "rock" =
      [⟨2, "b.mp3", "b.mp3", "jazz, live", "", ""⟩] ∧
    ("jazz, live" : String) ≠ "jazz,live" := by decide

/-- Claim C6 (amended): the remove operation with input tags "rock" maps a
"rock, live" track to "live", and on any track whose tag list does not
contain "rock" it keeps the parsed tag list and stores its `", "`-rejoined
form (textually unchanged exactly when the string already had that form). -/
theorem bulk_remove_rock_semantics :
    bulkRemoveTags (parseTags "rock") "rock, live" = "live" ∧
    ∀ t : String, "rock" ∉ parseTags t →
      bulkRemoveTags (parseTags "rock") t = String.intercalate ", " (parseTags t) := by
  refine ⟨by decide, ?_⟩
  intro t ht
  have hpr : parseTags "rock" = ["rock"] := by decide
  have hfilter : (parseTags t).filter (fun x => decide (x ∉ (["rock"] : List String)))
      = parseTags t := by
    apply List.filter_eq_self.mpr
    intro x hx
    simp only [decide_eq_true_eq, List.mem_singleton]
    intro he
    exact ht (he ▸ hx)
  simp only [bulkRemoveTags, hpr, hfilter]

/-- Witness for C6 (amended) on the already-normalized string
"jazz, live". -/
theorem bulk_remove_rock_semantics_witness :
    ("rock" ∉ parseTags "jazz, live") ∧
    bulkRemoveTags (parseTags "rock") "jazz, live" =
      String.intercalate ", " (parseTags "jazz, live") :=
  ⟨by decide, bulk_remove_rock_semantics.2 "jazz, live" (by decide)⟩

/-! ### Lemmas about LIKE patterns and lowercasing -/

theorem likeMatch_percent_nil (s : List Char) : likeMatch ['%'] s = true := by
  simp only [likeMatch, if_pos rfl]
  apply List.any_eq_true.mpr
  exact ⟨[], (List.mem_tails [] s).mpr List.nil_suffix, rfl⟩

theorem likeMatch_append_percent :
    ∀ p : List Char, (∀ c ∈ p, c ≠ '%' ∧ c ≠ '_') →
      ∀ s : List Char, likeMatch (p ++ ['%']) s = p.isPrefixOf s := by
  intro p
  induction p with
  | nil =>
    intro _ s
    rw [List.nil_append, likeMatch_percent_nil s]
    cases s <;> rfl
  | cons a p' ih =>
    intro hw s
    have ha := hw a (List.mem_cons_self a p')
    have hw' : ∀ c ∈ p', c ≠ '%' ∧ c ≠ '_' :=
      fun c hc => hw c (List.mem_cons_of_mem a hc)
    cases s with
    | nil =>
      simp [likeMatch, List.isPrefixOf, ha.1]
    | cons c cs =>
      by_cases hac : a = c
      · subst hac
        simp [likeMatch, ha.1, ha.2, List.isPrefixOf, ih hw' cs]
      · simp [likeMatch, ha.1, ha.2, hac, List.isPrefixOf]

theorem sqlLower_eq_empty (x : String) (h : sqlLower x = "") : x = "" := by
  have hd : x.data.map Char.toLower = [] := congrArg String.data h
  have hx : x.data = [] := List.map_eq_nil_iff.mp hd
  cases x
  simp at hx
  simp [hx]

/-! ### Claims about the query filter -/

/-- Claim C2 counterexample: with path filter "a_" and search filter "foo",
the row "ab.mp3" is returned (the `_` acts as a LIKE wildcard), although
"a_" is not a prefix of "ab.mp3", contradicting the exact-prefix reading
over every non-empty path filter. -/
theorem path_filter_wildcard_cex :
    update_library_list [⟨1, "ab.mp3", "ab.mp3", "", "", ""⟩] ⟨"foo", "", "", "", "a_"⟩ =
      [⟨1, "ab.mp3", "ab.mp3", "", "", ""⟩] ∧
    List.isPrefixOf (sqlLower "a_").data (sqlLower "ab.mp3").data = false := by decide

/-- Claim C2 (amended): for every non-empty path filter containing no LIKE
wildcard (`%` or `_`), the query returns exactly the rows whose
relative path has the lowercased path filter as a case-insensitive prefix,
and the search/tag/artist/album filters have no effect. -/
theorem path_filter_prefix_only (store : List Song) (f : Filters)
    (hne : f.path ≠ "")
    (hw : ∀ c ∈ (sqlLower f.path).data, c ≠ '%' ∧ c ≠ '_') :
    update_library_list store f = store.filter (fun s =>
      List.isPrefixOf (sqlLower f.path).data (sqlLower s.relative_path).data) := by
  unfold update_library_list
  apply List.filter_congr
  intro s _
  have hpne : sqlLower f.path ≠ "" := fun h => hne (sqlLower_eq_empty f.path h)
  simp only [songMatches]
  rw [if_neg hpne]
  exact likeMatch_append_percent (sqlLower f.path).data hw (sqlLower s.relative_path).data

/-- Witness for C2 (amended): search "foo" with path "bar/" returns the
path-prefix matches only. -/
theorem path_filter_prefix_only_witness :
    update_library_list
      [⟨1, "bar/x.mp3", "x.mp3", "", "", ""⟩, ⟨2, "baz/foo.mp3", "foo.mp3", "", "", ""⟩]
      ⟨"foo", "", "", "", "bar/"⟩ =
    List.filter (fun s =>
        List.isPrefixOf (sqlLower (Filters.mk "foo" "" "" "" "bar/").path).data
          (sqlLower s.relative_path).data)
      [⟨1, "bar/x.mp3", "x.mp3", "", "", ""⟩, ⟨2, "baz/foo.mp3", "foo.mp3", "", "", ""⟩] :=
  path_filter_prefix_only
    [⟨1, "bar/x.mp3", "x.mp3", "", "", ""⟩, ⟨2, "baz/foo.mp3", "foo.mp3", "", "", ""⟩]
    ⟨"foo", "", "", "", "bar/"⟩ (by decide) (by decide)

/-! ### Claims about seeking and the poll loop -/

/-- Claim C3: with a current track present in the store and a known positive
length, `on_seek(P)` records `P/100 * song_length` in `song_start_time`;
while the seek guard is active a poll tick reads nothing, and once the guard
has expired every poll tick reading a non-negative engine elapsed value
`e` (milliseconds) displays `e/1000 + song_start_time`, clamped above by
`song_length`. -/
theorem seek_start_time_and_poll_position (store : List Song) (musicRoot : String)
    (s : Session) (value : ℚ) (songId : Nat) (row : Song)
    (hcp : s.currently_playing = some songId)
    (hrow : store.find? (fun r => decide (r.id = songId)) = some row)
    (hL : 0 < s.song_length) :
    (on_seek true store musicRoot s value).1.song_start_time =
      value / 100 * s.song_length ∧
    (∀ e : ℚ, update_seek_bar true (on_seek true store musicRoot s value).1 e = none) ∧
    (∀ e : ℚ, 0 ≤ e →
      update_seek_bar true (seekGuardExpire (on_seek true store musicRoot s value).1) e =
        some (min (e / 1000 + value / 100 * s.song_length) s.song_length)) := by
  have h1 : ¬ (¬ (true : Bool) = true ∨ s.song_length ≤ 0) := by
    rintro (h | h)
    · simp at h
    · exact absurd h (not_le.mpr hL)
  have hs' : (on_seek true store musicRoot s value).1 =
      { currently_playing := s.currently_playing, is_playing := true,
        current_volume := s.current_volume, song_length := s.song_length,
        song_start_time := value / 100 * s.song_length, is_seeking := true } := by
    unfold on_seek
    rw [if_neg h1, hcp]
    simp only [hrow]
    by_cases hp : s.is_playing = true <;> simp [hp]
  refine ⟨by rw [hs'], ?_, ?_⟩
  · intro e
    rw [hs']
    simp [update_seek_bar]
  · intro e he
    rw [hs']
    simp only [seekGuardExpire, update_seek_bar, if_pos he]
    have hcl : (if s.song_length < e / 1000 + value / 100 * s.song_length
          then s.song_length else e / 1000 + value / 100 * s.song_length) =
        min (e / 1000 + value / 100 * s.song_length) s.song_length := by
      rcases le_or_lt (e / 1000 + value / 100 * s.song_length) s.song_length with h | h
      · rw [if_neg (not_lt.mpr h), min_eq_left h]
      · rw [if_pos h, min_eq_right h.le]
    simp [hL, hcl]

/-- Witness for C3 at a concrete session: track 1, length 200 s, seek to
50 %, then a poll tick reading 1000 ms. -/
theorem seek_start_time_and_poll_witness :
    (on_seek true [⟨1, "a.mp3", "a.mp3", "", "", ""⟩] "/m"
        { defaultSession with
            currently_playing := some 1, is_playing := true, song_length := 200 }
        50).1.song_start_time = 50 / 100 *
      ({ defaultSession with
          currently_playing := some 1, is_playing := true,
          song_length := 200 } : Session).song_length ∧
    update_seek_bar true
      (seekGuardExpire (on_seek true [⟨1, "a.mp3", "a.mp3", "", "", ""⟩] "/m"
        { defaultSession with
            currently_playing := some 1, is_playing := true, song_length := 200 }
        50).1) 1000 =
      some (min (1000 / 1000 + 50 / 100 *
        ({ defaultSession with
            currently_playing := some 1, is_playing := true,
            song_length := 200 } : Session).song_length)
        ({ defaultSession with
            currently_playing := some 1, is_playing := true,
            song_length := 200 } : Session).song_length) := by
  have h := seek_start_time_and_poll_position [⟨1, "a.mp3", "a.mp3", "", "", ""⟩] "/m"
    { defaultSession with
        currently_playing := some 1, is_playing := true, song_length := 200 }
    50 1 ⟨1, "a.mp3", "a.mp3", "", "", ""⟩ rfl (by decide) (by norm_num)
  exact ⟨h.1, h.2.2 1000 (by norm_num)⟩

/-! ### Claims about playlist reloading -/

/-- Claim C8: during a playlist reload, a path entry whose absolute path is
outside the music root is silently dropped (it contributes nothing to the
selection), and an absolute entry under the root contributes exactly its
root-relative form — for the `.m3u` loader (first conjunct) and for the
`.pls` loader's `File...=path` entries (second conjunct); `.json` playlists
carry `relative_path` fields, never absolute paths. -/
theorem playlist_reload_outside_root_dropped :
    (∀ (root : PyPath) (l : String) (ls : List String),
      trimStr l ≠ "" → startsWithChar '#' (trimStr l) = false →
      (parsePath (trimStr l)).absolute = true →
      (relative_to (parsePath (trimStr l)) root = none →
        load_m3u root (l :: ls) = load_m3u root ls) ∧
      (∀ rest : List String, relative_to (parsePath (trimStr l)) root = some rest →
        load_m3u root (l :: ls) = joinPath rest :: load_m3u root ls)) ∧
    (∀ (root : PyPath) (l : String) (ls : List String) (pre rest : List Char),
      List.isPrefixOf "File".data (trimStr l).data = true →
      splitFirst '=' (trimStr l).data = some (pre, rest) →
      (parsePath (⟨rest⟩ : String)).absolute = true →
      (relative_to (parsePath (⟨rest⟩ : String)) root = none →
        load_pls root (l :: ls) = load_pls root ls) ∧
      (∀ r : List String, relative_to (parsePath (⟨rest⟩ : String)) root = some r →
        load_pls root (l :: ls) = (load_pls root ls).map (fun acc => joinPath r :: acc))) := by
  constructor
  · intro root l ls h1 h2 h3
    have hm : m3uLine root l = processEntry root (trimStr l) := by
      simp only [m3uLine]
      rw [if_neg h1, if_neg (by simp [h2])]
    constructor
    · intro hrel
      have hp : processEntry root (trimStr l) = none := by
        simp only [processEntry]
        rw [if_pos h3, hrel]
      simp [load_m3u, List.filterMap_cons, hm, hp]
    · intro rest hrel
      have hp : processEntry root (trimStr l) = some (joinPath rest) := by
        simp only [processEntry]
        rw [if_pos h3, hrel]
      simp [load_m3u, List.filterMap_cons, hm, hp]
  · intro root l ls pre rest hfile hsplit habs
    have hl : plsLine root l = some (processEntry root (⟨rest⟩ : String)) := by
      simp only [plsLine]
      rw [if_pos hfile, hsplit]
    constructor
    · intro hrel
      have hp : processEntry root (⟨rest⟩ : String) = none := by
        simp only [processEntry]
        rw [if_pos habs, hrel]
      cases hls : load_pls root ls <;>
        simp [load_pls, hl, hp, hls]
    · intro r hrel
      have hp : processEntry root (⟨rest⟩ : String) = some (joinPath r) := by
        simp only [processEntry]
        rw [if_pos habs, hrel]
      cases hls : load_pls root ls <;>
        simp [load_pls, hl, hp, hls]

/-- Witness for C8: against root "/music", the out-of-root entry
"/other/x.mp3" is dropped from an `.m3u` reload, and the out-of-root entry
"File1=/other/x.mp3" is dropped from a `.pls` reload. -/
theorem playlist_reload_outside_root_dropped_witness :
    (load_m3u ⟨true, ["music"]⟩ ["/other/x.mp3", "sub/a.mp3"] =
      load_m3u ⟨true, ["music"]⟩ ["sub/a.mp3"]) ∧
    (load_pls ⟨true, ["music"]⟩ ["File1=/other/x.mp3", "File2=/music/b.mp3"] =
      load_pls ⟨true, ["music"]⟩ ["File2=/music/b.mp3"]) :=
  ⟨(playlist_reload_outside_root_dropped.1 ⟨true, ["music"]⟩ "/other/x.mp3"
      ["sub/a.mp3"] (by decide) (by decide) (by decide)).1 (by decide),
   (playlist_reload_outside_root_dropped.2 ⟨true, ["music"]⟩ "File1=/other/x.mp3"
      ["File2=/music/b.mp3"] "File1".data "/other/x.mp3".data (by decide) (by decide)
      (by decide)).1 (by decide)⟩
